import Mathlib

/-!
Shallow embedding of the StreamYard discovery backend (src/index.js and
src/unnamed/part_000): room lifecycle, role classification on join,
signup/login over the user store, and JWT issuance/verification.
-/

/-- Room lifecycle status, the `status` enum of the room schema. -/
inductive Status
  | created
  | live
  | ended
deriving DecidableEq, Repr

/-- Role assigned to a joining user by the join handler. -/
inductive Role
  | host
  | guest
  | audience
deriving DecidableEq, Repr

/-- A Room document, after the room schema of src/index.js. -/
structure Room where
  roomId : String
  title : String
  hostId : String
  guestIds : List String
  webrtcRoomId : String
  hlsPlaybackUrl : String
  chatChannelId : String
  status : Status
deriving DecidableEq, Repr

/-- `const MAX_GUESTS = 10`. -/
def MAX_GUESTS : Nat := 10

/-- `buildMockHlsUrl`: the synthesized placeholder playback URL. -/
def buildMockHlsUrl (roomId : String) : String :=
  "https://example.com/hls/" ++ roomId ++ "/index.m3u8"

/-- The view returned by the join handler (`buildJoinResponse`). -/
structure JoinResponse where
  role : Role
  roomId : String
  webrtcRoomId : String
  hlsUrl : String
  chatRoomId : String
deriving DecidableEq, Repr

/-- `buildJoinResponse(room, role)`. -/
def buildJoinResponse (room : Room) (role : Role) : JoinResponse :=
  { role := role
    roomId := room.roomId
    webrtcRoomId := room.webrtcRoomId
    hlsUrl := room.hlsPlaybackUrl
    chatRoomId := room.chatChannelId }

/-- JavaScript `a || b` on a possibly-absent string operand: `undefined`,
`null` and the empty string are falsy, so they all select `b`. -/
def jsOrString : Option String → String → String
  | none, d => d
  | some s, d => if s = "" then d else s

/-- The room-creation handler's document construction (src/index.js lines
142-152): fresh ids are parameters since uuid generation is an external
effect; guest list starts empty, status starts `created`, and the playback
URL is `hlsPlaybackUrl || buildMockHlsUrl(roomId)`. -/
def createRoom (roomId title hostId : String) (hlsPlaybackUrl : Option String)
    (webrtcRoomId chatChannelId : String) : Room :=
  { roomId := roomId
    title := title
    hostId := hostId
    guestIds := []
    webrtcRoomId := webrtcRoomId
    hlsPlaybackUrl := jsOrString hlsPlaybackUrl (buildMockHlsUrl roomId)
    chatChannelId := chatChannelId
    status := Status.created }

/-- The join handler's classification on a found room (src/index.js lines
181-195): host check, then rejoin check (`guestIds.includes`), then the
capacity check with append-and-save, else audience. Returns the response
together with the (possibly updated) room document. -/
def joinRoom (room : Room) (userId : String) : JoinResponse × Room :=
  if room.hostId = userId then
    (buildJoinResponse room Role.host, room)
  else if room.guestIds.contains userId then
    (buildJoinResponse room Role.guest, room)
  else if room.guestIds.length < MAX_GUESTS then
    let updated := { room with guestIds := room.guestIds ++ [userId] }
    (buildJoinResponse updated Role.guest, updated)
  else
    (buildJoinResponse room Role.audience, room)

/-- The mutating operations a single room document is subject to after
creation: join, and the start/stop status writes. -/
inductive Op
  | join (userId : String)
  | start
  | stop
deriving DecidableEq, Repr

/-- Effect of one operation on a room document: join as in `joinRoom`;
start and stop are `findOneAndUpdate` writes of `live` resp. `ended`. -/
def applyOp (room : Room) : Op → Room
  | Op.join u => (joinRoom room u).2
  | Op.start => { room with status := Status.live }
  | Op.stop => { room with status := Status.ended }

/-- A sequence of operations applied to a room document. -/
def runOps (room : Room) (ops : List Op) : Room :=
  List.foldl applyOp room ops

/-- `Room.findOne({ roomId: id })` over the room collection. -/
def findRoom (rooms : List Room) (id : String) : Option Room :=
  List.find? (fun r => r.roomId == id) rooms

/-- In-place update of the (unique-indexed) document whose `roomId` matches
`updated.roomId`: the store guarantees at most one match, so replacing the
first match is the store's write-back. -/
def replaceRoom : List Room → Room → List Room
  | [], _ => []
  | r :: rest, updated =>
    if r.roomId == updated.roomId then updated :: rest
    else r :: replaceRoom rest updated

/-- The `{ roomId, status }` view the start/stop handlers respond with. -/
structure StatusView where
  roomId : String
  status : Status
deriving DecidableEq, Repr

/-- The common body of the start/stop handlers (src/index.js lines 223-257):
`findOneAndUpdate({roomId: id}, {status: newStatus}, {new: true})`, a 404
when no document matches, else the `{roomId, status}` view of the updated
document together with the updated collection. -/
def setRoomStatus (rooms : List Room) (id : String) (newStatus : Status) :
    Except String (StatusView × List Room) :=
  match findRoom rooms id with
  | none => Except.error "room not found"
  | some r =>
    let updated := { r with status := newStatus }
    Except.ok ({ roomId := updated.roomId, status := updated.status },
      replaceRoom rooms updated)

/-- The `POST /room/:id/start` handler: unconditional write of `live`. -/
def startRoom (rooms : List Room) (id : String) :
    Except String (StatusView × List Room) :=
  setRoomStatus rooms id Status.live

/-- The `POST /room/:id/stop` handler: unconditional write of `ended`. -/
def stopRoom (rooms : List Room) (id : String) :
    Except String (StatusView × List Room) :=
  setRoomStatus rooms id Status.ended

/-- A User document, after the user schema; `_id` is the store-generated
document identity that the token payload embeds as `userId`. -/
structure User where
  _id : String
  name : String
  email : String
  password : String
deriving DecidableEq, Repr

/-- ASCII lowercasing of a string, character by character: the model of
`String.prototype.toLowerCase()` and of the lowercasing that
express-validator's `normalizeEmail()` applies to the email field. -/
def lowerString (s : String) : String :=
  String.mk (List.map Char.toLower s.data)

/-- The email normalization the signup/login validation chain performs
before the handler runs (`body('email').isEmail().normalizeEmail()` in
src/unnamed/part_000): the aspect observable in the record store is that
the address is lowercased. -/
def normalizeEmail (email : String) : String :=
  lowerString email

/-- The claims object embedded in a session token:
`{ userId: user._id, email: user.email, name: user.name }`. -/
structure Claims where
  userId : String
  email : String
  name : String
deriving DecidableEq, Repr

/-- A signed token. Models the jsonwebtoken library (an external
dependency): `jwt.sign(payload, secret, {expiresIn: '24h'})` binds the
payload to the signing secret and to an expiry 24 hours (86400 seconds)
from issuance. The signature is represented symbolically by the secret
that produced it. -/
structure SignedToken where
  payload : Claims
  exp : Nat
  sig : String
deriving DecidableEq, Repr

/-- Model of `jwt.sign(payload, secret, { expiresIn: '24h' })`. -/
def jwtSign (payload : Claims) (secret : String) (now : Nat) : SignedToken :=
  { payload := payload, exp := now + 86400, sig := secret }

/-- Model of `jwt.verify(token, secret)`: succeeds exactly when the token
was signed with the same secret and the verification time is before the
expiry, yielding the embedded claims. -/
def jwtVerify (token : SignedToken) (secret : String) (now : Nat) : Option Claims :=
  if token.sig = secret ∧ now < token.exp then some token.payload else none

/-- `generateToken(user)` of src/unnamed/part_000 lines 113-144: throws if
`JWT_SECRET` is not configured, else signs `{userId, email, name}` with a
24-hour expiry. -/
def generateToken (jwtSecret : Option String) (user : User) (now : Nat) :
    Except String SignedToken :=
  match jwtSecret with
  | none => Except.error "JWT_SECRET environment variable is not set"
  | some s =>
    Except.ok (jwtSign { userId := user._id, email := user.email, name := user.name } s now)

/-- Outcome of the signup handler of src/unnamed/part_000 lines 171-232
(after the validation middleware has accepted and normalized the input). -/
inductive SignupResult
  | userExists
  | userCreated (token : SignedToken) (id name email : String)
  | signupFailed
deriving DecidableEq, Repr

/-- The signup handler of src/unnamed/part_000: the raw email is first
normalized by the validation chain; `User.findOne({email})` decides the
duplicate case (409 USER_EXISTS) before anything is written; otherwise the
user is created with the trimmed name and lowercased email, and a token is
issued (a token-generation throw is caught as the 500 response, after the
user was already persisted). `newId` is the store-generated `_id`. -/
def signup (jwtSecret : Option String) (now : Nat) (users : List User)
    (newId name email password : String) : SignupResult × List User :=
  let e := normalizeEmail email
  match List.find? (fun u => u.email == e) users with
  | some _ => (SignupResult.userExists, users)
  | none =>
    let newUser : User :=
      { _id := newId, name := name.trim, email := lowerString e, password := password }
    let users2 := users ++ [newUser]
    match generateToken jwtSecret newUser now with
    | Except.error _ => (SignupResult.signupFailed, users2)
    | Except.ok token =>
      (SignupResult.userCreated token newUser._id newUser.name newUser.email, users2)

/-- Outcome of the login handler of src/unnamed/part_000 lines 234-332. -/
inductive LoginResult
  | userNotFound
  | invalidPassword
  | tokenGenerationFailed
  | loginSuccess (token : SignedToken) (id name email : String)
deriving DecidableEq, Repr

/-- The login handler of src/unnamed/part_000: look the user up by the
lowercased email (`User.findOne({email: email.toLowerCase()})`, the raw
email having already passed `normalizeEmail()`); a missing user is the 401
USER_NOT_FOUND case, a stored password differing from the supplied one
(`!==`) is the 401 INVALID_PASSWORD case, and only then is a token
issued. -/
def login (jwtSecret : Option String) (now : Nat) (users : List User)
    (email password : String) : LoginResult :=
  let e := normalizeEmail email
  match List.find? (fun u => u.email == lowerString e) users with
  | none => LoginResult.userNotFound
  | some u =>
    if u.password ≠ password then LoginResult.invalidPassword
    else
      match generateToken jwtSecret u now with
      | Except.error _ => LoginResult.tokenGenerationFailed
      | Except.ok token => LoginResult.loginSuccess token u._id u.name u.email

theorem joinRoom_host (room : Room) (u : String) (h : room.hostId = u) :
    joinRoom room u = (buildJoinResponse room Role.host, room) := by
  simp [joinRoom, h]

theorem joinRoom_rejoin (room : Room) (u : String) (hh : room.hostId ≠ u)
    (hm : u ∈ room.guestIds) :
    joinRoom room u = (buildJoinResponse room Role.guest, room) := by
  simp [joinRoom, hh, List.contains, hm]

theorem joinRoom_append (room : Room) (u : String) (hh : room.hostId ≠ u)
    (hm : u ∉ room.guestIds) (hc : room.guestIds.length < MAX_GUESTS) :
    joinRoom room u =
      (buildJoinResponse { room with guestIds := room.guestIds ++ [u] } Role.guest,
        { room with guestIds := room.guestIds ++ [u] }) := by
  simp [joinRoom, hh, List.contains, hm, hc]

theorem joinRoom_full (room : Room) (u : String) (hh : room.hostId ≠ u)
    (hm : u ∉ room.guestIds) (hc : ¬ room.guestIds.length < MAX_GUESTS) :
    joinRoom room u = (buildJoinResponse room Role.audience, room) := by
  simp [joinRoom, hh, List.contains, hm, hc]

/-- C1: on an existing room the join handler classifies by exactly these
rules, in strict order: a user identity equal to the room's host identity
is `host` with no mutation; else an identity already among the guest
identities is `guest` with no mutation; else a guest count strictly below
the capacity of 10 appends the identity and yields `guest`; else the role
is `audience` with no mutation. -/
theorem joinRoom_role_classification (room : Room) (u : String) :
    (room.hostId = u →
      (joinRoom room u).1.role = Role.host ∧ (joinRoom room u).2 = room) ∧
    (room.hostId ≠ u → u ∈ room.guestIds →
      (joinRoom room u).1.role = Role.guest ∧ (joinRoom room u).2 = room) ∧
    (room.hostId ≠ u → u ∉ room.guestIds → room.guestIds.length < MAX_GUESTS →
      (joinRoom room u).1.role = Role.guest ∧
        (joinRoom room u).2 = { room with guestIds := room.guestIds ++ [u] }) ∧
    (room.hostId ≠ u → u ∉ room.guestIds → ¬ room.guestIds.length < MAX_GUESTS →
      (joinRoom room u).1.role = Role.audience ∧ (joinRoom room u).2 = room) := by
  refine ⟨fun h => ?_, fun hh hm => ?_, fun hh hm hc => ?_, fun hh hm hc => ?_⟩
  · rw [joinRoom_host room u h]; exact ⟨rfl, rfl⟩
  · rw [joinRoom_rejoin room u hh hm]; exact ⟨rfl, rfl⟩
  · rw [joinRoom_append room u hh hm hc]; exact ⟨rfl, rfl⟩
  · rw [joinRoom_full room u hh hm hc]; exact ⟨rfl, rfl⟩

theorem applyOp_guest_capacity (room : Room) (op : Op)
    (h : room.guestIds.length ≤ MAX_GUESTS) :
    (applyOp room op).guestIds.length ≤ MAX_GUESTS := by
  cases op with
  | start => exact h
  | stop => exact h
  | join u =>
    show ((joinRoom room u).2).guestIds.length ≤ MAX_GUESTS
    by_cases h1 : room.hostId = u
    · rw [joinRoom_host room u h1]; exact h
    · by_cases h2 : u ∈ room.guestIds
      · rw [joinRoom_rejoin room u h1 h2]; exact h
      · by_cases h3 : room.guestIds.length < MAX_GUESTS
        · rw [joinRoom_append room u h1 h2 h3]
          simpa using h3
        · rw [joinRoom_full room u h1 h2 h3]; exact h

theorem runOps_guest_capacity (room : Room) (ops : List Op)
    (h : room.guestIds.length ≤ MAX_GUESTS) :
    (runOps room ops).guestIds.length ≤ MAX_GUESTS := by
  induction ops generalizing room with
  | nil => exact h
  | cons op rest ih => exact ih (applyOp room op) (applyOp_guest_capacity room op h)

/-- C2: the guest list never exceeds length 10 under any operation
sequence; at capacity, a further distinct non-host identity is classed
`audience` and the guest list is unchanged, as the concrete run with ten
distinct guests and an eleventh joiner also exhibits. -/
theorem guest_list_capacity (room : Room) (ops : List Op) (u : String) :
    (room.guestIds.length ≤ MAX_GUESTS →
      (runOps room ops).guestIds.length ≤ MAX_GUESTS) ∧
    (room.hostId ≠ u → u ∉ room.guestIds → room.guestIds.length = MAX_GUESTS →
      (joinRoom room u).1.role = Role.audience ∧
        (joinRoom room u).2.guestIds = room.guestIds) ∧
    ((runOps (createRoom "r1" "Show" "h1" none "w1" "c1")
        [Op.join "a", Op.join "b", Op.join "c", Op.join "d", Op.join "e",
         Op.join "f", Op.join "g", Op.join "i", Op.join "j", Op.join "k"]).guestIds.length =
        MAX_GUESTS ∧
      (joinRoom (runOps (createRoom "r1" "Show" "h1" none "w1" "c1")
        [Op.join "a", Op.join "b", Op.join "c", Op.join "d", Op.join "e",
         Op.join "f", Op.join "g", Op.join "i", Op.join "j", Op.join "k"]) "z").1.role =
        Role.audience ∧
      (joinRoom (runOps (createRoom "r1" "Show" "h1" none "w1" "c1")
        [Op.join "a", Op.join "b", Op.join "c", Op.join "d", Op.join "e",
         Op.join "f", Op.join "g", Op.join "i", Op.join "j", Op.join "k"]) "z").2.guestIds.length =
        MAX_GUESTS) := by
  refine ⟨fun h => runOps_guest_capacity room ops h, fun hh hm he => ?_, by decide⟩
  have hc : ¬ room.guestIds.length < MAX_GUESTS := by omega
  rw [joinRoom_full room u hh hm hc]
  exact ⟨rfl, rfl⟩

theorem joinRoom_status (room : Room) (u : String) :
    ((joinRoom room u).2).status = room.status := by
  simp only [joinRoom]
  split_ifs <;> rfl

theorem applyOp_status_cases (room : Room) (op : Op) :
    (applyOp room op).status = room.status ∨
      (applyOp room op).status = Status.live ∨
      (applyOp room op).status = Status.ended := by
  cases op with
  | join u => exact Or.inl (joinRoom_status room u)
  | start => exact Or.inr (Or.inl rfl)
  | stop => exact Or.inr (Or.inr rfl)

theorem runOps_not_created (room : Room) (ops : List Op)
    (h : room.status ≠ Status.created) :
    (runOps room ops).status ≠ Status.created := by
  induction ops generalizing room with
  | nil => exact h
  | cons op rest ih =>
    refine ih (applyOp room op) ?_
    rcases applyOp_status_cases room op with h1 | h1 | h1 <;> rw [h1]
    · exact h
    · exact fun hle => Status.noConfusion hle
    · exact fun hle => Status.noConfusion hle

/-- C3 counterexample: on a concrete room whose status is `ended`, the
start operation yields status `live`, so a transition out of `ended` is
produced, contrary to the claim. -/
theorem start_resurrects_ended_room :
    ({ roomId := "r1", title := "Show", hostId := "h1", guestIds := [],
       webrtcRoomId := "w1", hlsPlaybackUrl := "u1", chatChannelId := "c1",
       status := Status.ended } : Room).status = Status.ended ∧
    (applyOp
      { roomId := "r1", title := "Show", hostId := "h1", guestIds := [],
        webrtcRoomId := "w1", hlsPlaybackUrl := "u1", chatChannelId := "c1",
        status := Status.ended } Op.start).status = Status.live :=
  ⟨rfl, rfl⟩

/-- C3 (amended): every operation either leaves the status unchanged or
writes `live` or `ended`; start always yields `live` and stop always
yields `ended` regardless of the prior status, so `ended → live` does
occur; what does hold is that no operation sequence ever brings a status
back to `created`. -/
theorem status_transitions (room : Room) (op : Op) (ops : List Op) :
    ((applyOp room op).status = room.status ∨
      (applyOp room op).status = Status.live ∨
      (applyOp room op).status = Status.ended) ∧
    (applyOp room Op.start).status = Status.live ∧
    (applyOp room Op.stop).status = Status.ended ∧
    (room.status ≠ Status.created → (runOps room ops).status ≠ Status.created) :=
  ⟨applyOp_status_cases room op, rfl, rfl, runOps_not_created room ops⟩

theorem applyOp_hostId (room : Room) (op : Op) :
    (applyOp room op).hostId = room.hostId := by
  cases op with
  | join u =>
    show ((joinRoom room u).2).hostId = room.hostId
    simp only [joinRoom]
    split_ifs <;> rfl
  | start => rfl
  | stop => rfl

theorem applyOp_host_not_guest (room : Room) (op : Op)
    (h : room.hostId ∉ room.guestIds) :
    (applyOp room op).hostId ∉ (applyOp room op).guestIds := by
  rw [applyOp_hostId room op]
  cases op with
  | start => exact h
  | stop => exact h
  | join u =>
    show room.hostId ∉ ((joinRoom room u).2).guestIds
    by_cases h1 : room.hostId = u
    · rw [joinRoom_host room u h1]; exact h
    · by_cases h2 : u ∈ room.guestIds
      · rw [joinRoom_rejoin room u h1 h2]; exact h
      · by_cases h3 : room.guestIds.length < MAX_GUESTS
        · rw [joinRoom_append room u h1 h2 h3]
          simp only [List.mem_append, List.mem_singleton]
          rintro (hin | hin)
          · exact h hin
          · exact h1 hin
        · rw [joinRoom_full room u h1 h2 h3]; exact h

theorem runOps_host_not_guest (room : Room) (ops : List Op)
    (h : room.hostId ∉ room.guestIds) :
    (runOps room ops).hostId ∉ (runOps room ops).guestIds := by
  induction ops generalizing room with
  | nil => exact h
  | cons op rest ih => exact ih (applyOp room op) (applyOp_host_not_guest room op h)

/-- C9: a created room starts with an empty guest list, joining as the
host yields role `host` without touching the room, and under every
operation sequence the host identity never enters the guest list. -/
theorem host_never_in_guests (roomId title hostId : String)
    (hls : Option String) (w c : String) (room : Room) (ops : List Op) :
    (createRoom roomId title hostId hls w c).guestIds = [] ∧
    (joinRoom room room.hostId).1.role = Role.host ∧
    (joinRoom room room.hostId).2 = room ∧
    (room.hostId ∉ room.guestIds →
      (runOps room ops).hostId ∉ (runOps room ops).guestIds) := by
  refine ⟨rfl, ?_, ?_, runOps_host_not_guest room ops⟩
  · rw [joinRoom_host room room.hostId rfl]; rfl
  · rw [joinRoom_host room room.hostId rfl]

theorem applyOp_nodup (room : Room) (op : Op)
    (h : room.guestIds.Nodup) : (applyOp room op).guestIds.Nodup := by
  cases op with
  | start => exact h
  | stop => exact h
  | join u =>
    show ((joinRoom room u).2).guestIds.Nodup
    by_cases h1 : room.hostId = u
    · rw [joinRoom_host room u h1]; exact h
    · by_cases h2 : u ∈ room.guestIds
      · rw [joinRoom_rejoin room u h1 h2]; exact h
      · by_cases h3 : room.guestIds.length < MAX_GUESTS
        · rw [joinRoom_append room u h1 h2 h3]
          simp [List.nodup_append, h, h2]
        · rw [joinRoom_full room u h1 h2 h3]; exact h

theorem runOps_nodup (room : Room) (ops : List Op)
    (h : room.guestIds.Nodup) : (runOps room ops).guestIds.Nodup := by
  induction ops generalizing room with
  | nil => exact h
  | cons op rest ih => exact ih (applyOp room op) (applyOp_nodup room op h)

/-- C8: joining with an identity already among the guests yields role
`guest` and leaves the room (so in particular the guest list, its length
and order) unchanged; and from any room with a duplicate-free guest list,
no operation sequence ever introduces a duplicate. -/
theorem rejoin_preserves_guests (room : Room) (u : String) (ops : List Op) :
    (room.hostId ∉ room.guestIds → u ∈ room.guestIds →
      (joinRoom room u).1.role = Role.guest ∧ (joinRoom room u).2 = room) ∧
    (room.guestIds.Nodup → (runOps room ops).guestIds.Nodup) := by
  refine ⟨fun hh hm => ?_, runOps_nodup room ops⟩
  have hne : room.hostId ≠ u := fun he => hh (he ▸ hm)
  rw [joinRoom_rejoin room u hne hm]
  exact ⟨rfl, rfl⟩

theorem findRoom_roomId (rooms : List Room) (id : String) (r : Room)
    (h : findRoom rooms id = some r) : r.roomId = id := by
  have := List.find?_some h
  simpa using this

theorem findRoom_replaceRoom (rooms : List Room) (id : String) (r u : Room)
    (hf : findRoom rooms id = some r) (hu : u.roomId = id) :
    findRoom (replaceRoom rooms u) id = some u := by
  induction rooms with
  | nil => simp [findRoom] at hf
  | cons x rest ih =>
    by_cases hx : x.roomId = id
    · simp [replaceRoom, hu, hx, findRoom]
    · have hf' : findRoom rest id = some r := by
        simpa [findRoom, List.find?_cons, hx] using hf
      have : replaceRoom (x :: rest) u = x :: replaceRoom rest u := by
        simp [replaceRoom, hu, hx]
      rw [this]
      simpa [findRoom, List.find?_cons, hx] using ih hf'

theorem replaceRoom_replaceRoom (rooms : List Room) (u v : Room)
    (h : v.roomId = u.roomId) :
    replaceRoom (replaceRoom rooms u) v = replaceRoom rooms v := by
  induction rooms with
  | nil => rfl
  | cons x rest ih =>
    by_cases hx : x.roomId = u.roomId
    · simp [replaceRoom, hx, h]
    · have hx' : ¬ x.roomId = v.roomId := by rw [h]; exact hx
      simp [replaceRoom, hx, hx', ih]

/-- C4: the start/stop write on an existing room overwrites the status
unconditionally whatever its current value, persists it, and responds with
the `{roomId, status}` view; re-issuing the same write succeeds with the
same response and leaves the store unchanged; a non-existent room identity
yields the not-found error. -/
theorem setRoomStatus_spec (rooms : List Room) (id : String) (s : Status) :
    (findRoom rooms id = none →
      setRoomStatus rooms id s = Except.error "room not found") ∧
    (∀ r, findRoom rooms id = some r →
      ∃ rooms2,
        setRoomStatus rooms id s =
          Except.ok ({ roomId := r.roomId, status := s }, rooms2) ∧
        findRoom rooms2 id = some { r with status := s } ∧
        setRoomStatus rooms2 id s =
          Except.ok ({ roomId := r.roomId, status := s }, rooms2)) ∧
    startRoom rooms id = setRoomStatus rooms id Status.live ∧
    stopRoom rooms id = setRoomStatus rooms id Status.ended := by
  refine ⟨fun h => by simp [setRoomStatus, h], fun r hf => ?_, rfl, rfl⟩
  have hrid : r.roomId = id := findRoom_roomId rooms id r hf
  have hurid : ({ r with status := s } : Room).roomId = id := hrid
  refine ⟨replaceRoom rooms { r with status := s }, by simp [setRoomStatus, hf], ?_, ?_⟩
  · exact findRoom_replaceRoom rooms id r _ hf hurid
  · have h2 : findRoom (replaceRoom rooms { r with status := s }) id =
        some { r with status := s } :=
      findRoom_replaceRoom rooms id r _ hf hurid
    simp only [setRoomStatus, h2]
    rw [replaceRoom_replaceRoom rooms { r with status := s } { r with status := s } rfl]

theorem toNat_ofNat_of_lt {n : Nat} (h : n < 55296) : (Char.ofNat n).toNat = n := by
  rw [Char.ofNat, dif_pos (Or.inl h)]
  rfl

theorem charToLower_idem (c : Char) : c.toLower.toLower = c.toLower := by
  simp only [Char.toLower]
  by_cases h : c.toNat ≥ 65 ∧ c.toNat ≤ 90
  · rw [if_pos h, toNat_ofNat_of_lt (by omega), if_neg (by omega)]
  · rw [if_neg h, if_neg h]

theorem lowerString_idem (s : String) : lowerString (lowerString s) = lowerString s := by
  unfold lowerString
  congr 1
  rw [show (String.mk (List.map Char.toLower s.data)).data =
      List.map Char.toLower s.data from rfl]
  rw [List.map_map]
  exact List.map_congr_left (fun c _ => charToLower_idem c)

theorem signup_found (jwtSecret : Option String) (now : Nat) (users : List User)
    (id name email password : String) (u : User)
    (h : List.find? (fun x => x.email == normalizeEmail email) users = some u) :
    signup jwtSecret now users id name email password =
      (SignupResult.userExists, users) := by
  simp only [signup, h]

theorem signup_fresh_snd (jwtSecret : Option String) (now : Nat) (users : List User)
    (id name email password : String)
    (h : List.find? (fun x => x.email == normalizeEmail email) users = none) :
    (signup jwtSecret now users id name email password).2 =
      users ++ [{ _id := id
                  name := name.trim
                  email := lowerString (normalizeEmail email)
                  password := password }] := by
  simp only [signup, h]
  cases jwtSecret <;> rfl

theorem signup_fresh_ne (jwtSecret : Option String) (now : Nat) (users : List User)
    (id name email password : String)
    (h : List.find? (fun x => x.email == normalizeEmail email) users = none) :
    (signup jwtSecret now users id name email password).1 ≠ SignupResult.userExists := by
  simp only [signup, h]
  cases jwtSecret
  · exact fun hc => SignupResult.noConfusion hc
  · exact fun hc => SignupResult.noConfusion hc

/-- C5: with no user yet stored under an email (compared after
lowercasing), the first registration is not rejected as a duplicate, a
second registration with an email equal to it up to case fails with the
duplicate-identity error, and the user store afterwards holds exactly one
user record for that email. -/
theorem duplicate_signup_rejected (jwtSecret : Option String) (now now2 : Nat)
    (users : List User) (id1 id2 n1 e1 p1 n2 e2 p2 : String)
    (hfresh : List.countP (fun u => u.email == normalizeEmail e1) users = 0)
    (hsame : normalizeEmail e2 = normalizeEmail e1) :
    (signup jwtSecret now users id1 n1 e1 p1).1 ≠ SignupResult.userExists ∧
    (signup jwtSecret now2 (signup jwtSecret now users id1 n1 e1 p1).2
        id2 n2 e2 p2).1 = SignupResult.userExists ∧
    List.countP (fun u => u.email == normalizeEmail e1)
      (signup jwtSecret now2 (signup jwtSecret now users id1 n1 e1 p1).2
        id2 n2 e2 p2).2 = 1 := by
  have hnone : List.find? (fun u => u.email == normalizeEmail e1) users = none := by
    rw [List.find?_eq_none]
    intro x hx
    have := List.countP_eq_zero.mp hfresh x hx
    simpa using this
  have hsnd := signup_fresh_snd jwtSecret now users id1 n1 e1 p1 hnone
  have hnuemail :
      ({ _id := id1
         name := n1.trim
         email := lowerString (normalizeEmail e1)
         password := p1 } : User).email = normalizeEmail e1 := lowerString_idem e1
  have hfind2 : List.find? (fun u => u.email == normalizeEmail e2)
      (signup jwtSecret now users id1 n1 e1 p1).2 =
      some { _id := id1
             name := n1.trim
             email := lowerString (normalizeEmail e1)
             password := p1 } := by
    rw [hsnd, hsame, List.find?_append, hnone]
    simp [normalizeEmail, List.find?, lowerString_idem e1]
  have hsecond := signup_found jwtSecret now2
    (signup jwtSecret now users id1 n1 e1 p1).2 id2 n2 e2 p2 _ hfind2
  refine ⟨signup_fresh_ne jwtSecret now users id1 n1 e1 p1 hnone, ?_, ?_⟩
  · rw [hsecond]
  · rw [hsecond, hsnd, List.countP_append, hfresh]
    simp [normalizeEmail, List.countP_cons, lowerString_idem e1]

/-- C5 witness: a concrete run from the empty store, registering first
with a mixed-case email and then with its lowercase form. -/
theorem duplicate_signup_rejected_witness :
    (signup (some "sk") 0 [] "u1" "Ann" "Ann@X.com" "pw1234").1 ≠
      SignupResult.userExists ∧
    (signup (some "sk") 1 (signup (some "sk") 0 [] "u1" "Ann" "Ann@X.com" "pw1234").2
        "u2" "Ann" "ann@x.com" "pw1234").1 = SignupResult.userExists ∧
    List.countP (fun u => u.email == normalizeEmail "Ann@X.com")
      (signup (some "sk") 1 (signup (some "sk") 0 [] "u1" "Ann" "Ann@X.com" "pw1234").2
        "u2" "Ann" "ann@x.com" "pw1234").2 = 1 :=
  duplicate_signup_rejected (some "sk") 0 1 [] "u1" "u2" "Ann" "Ann@X.com" "pw1234"
    "Ann" "ann@x.com" "pw1234" (by decide) (by decide)

/-- C6: login with an email matching no stored user fails as
user-not-found; login with a matching email but a supplied password
differing from the stored one fails as invalid-password, never as
not-found; the two outcomes are distinct constructors of the result. -/
theorem login_failure_modes (jwtSecret : Option String) (now : Nat)
    (users : List User) (email password : String) :
    ((∀ x ∈ users, x.email ≠ lowerString (normalizeEmail email)) →
      login jwtSecret now users email password = LoginResult.userNotFound) ∧
    (∀ x, List.find? (fun u => u.email == lowerString (normalizeEmail email))
        users = some x →
      x.password ≠ password →
      login jwtSecret now users email password = LoginResult.invalidPassword) ∧
    LoginResult.userNotFound ≠ LoginResult.invalidPassword := by
  refine ⟨fun h => ?_, fun x hfind hpw => ?_, fun hc => LoginResult.noConfusion hc⟩
  · have hnone : List.find? (fun u => u.email == lowerString (normalizeEmail email))
        users = none := by
      rw [List.find?_eq_none]
      intro x hx
      simpa using h x hx
    simp [login, hnone]
  · simp [login, hfind, hpw]

/-- C7: a token freshly issued for a user verifies successfully at any
time before the 24-hour expiry and yields exactly the claims embedded at
issuance: the user's identity as userId, plus the user's email and name. -/
theorem token_roundtrip (user : User) (secret : String) (issuedAt verifyAt : Nat)
    (h : verifyAt < issuedAt + 86400) :
    ∃ token, generateToken (some secret) user issuedAt = Except.ok token ∧
      jwtVerify token secret verifyAt =
        some { userId := user._id, email := user.email, name := user.name } := by
  refine ⟨jwtSign { userId := user._id, email := user.email, name := user.name }
    secret issuedAt, rfl, ?_⟩
  simp [jwtVerify, jwtSign, h]

/-- C7 witness at a concrete user, secret and clock. -/
theorem token_roundtrip_witness :
    ∃ token,
      generateToken (some "sk")
          { _id := "u1", name := "Ann", email := "ann@x.com", password := "pw1234" } 0 =
        Except.ok token ∧
      jwtVerify token "sk" 3600 =
        some { userId := "u1", email := "ann@x.com", name := "Ann" } :=
  token_roundtrip
    { _id := "u1", name := "Ann", email := "ann@x.com", password := "pw1234" }
    "sk" 0 3600 (by decide)

theorem buildMockHlsUrl_ne_empty (roomId : String) : buildMockHlsUrl roomId ≠ "" := by
  intro h
  have hlen := congrArg String.length h
  rw [buildMockHlsUrl] at hlen
  simp [String.length_append] at hlen
  exact absurd hlen.1.1 (by decide)

/-- C10: in room creation a caller-supplied empty playback URL behaves
exactly as an omitted one — the stored URL is then the placeholder built
from the room identity — and the persisted playback URL is never the
empty string. -/
theorem empty_playback_url_replaced (roomId title hostId w c : String) :
    createRoom roomId title hostId (some "") w c =
      createRoom roomId title hostId none w c ∧
    (createRoom roomId title hostId (some "") w c).hlsPlaybackUrl =
      buildMockHlsUrl roomId ∧
    (∀ supplied : Option String,
      (createRoom roomId title hostId supplied w c).hlsPlaybackUrl ≠ "") := by
  refine ⟨rfl, rfl, fun supplied => ?_⟩
  cases supplied with
  | none => exact buildMockHlsUrl_ne_empty roomId
  | some s =>
    show jsOrString (some s) (buildMockHlsUrl roomId) ≠ ""
    by_cases hs : s = ""
    · simpa [jsOrString, hs] using buildMockHlsUrl_ne_empty roomId
    · simp [jsOrString, hs]
